import Mathlib

/-!
Verification development for the financial-rag repository.

Shallow embedding of the core RAG pipeline: response evaluation
(`src/api/src/services/evaluation.py`), query processing and streaming
(`src/api/src/core/rag.py`), batch embedding generation with caching
(`src/api/src/services/embeddings.py`), the two text chunkers
(`src/api/src/utils/text_processing.py` and `RAGSystem._chunk_text`),
document ingestion and deletion (`src/api/src/core/rag.py`), and the
vector-store filter construction (`src/api/src/services/vector_store.py`).

External collaborators (Azure blob store, OpenAI embedding/completion
providers, Qdrant, Redis) are modelled as explicit function or value
parameters: a shallowly-embedded operation receives the collaborator's
outcome as an argument.  Python floats are modelled as rationals, Python
lists as Lean lists, Python dicts as association lists, raised exceptions
as `Except.error`.
-/

set_option autoImplicit false

namespace FinancialRag

/-- Python's `needle in haystack` substring test on strings. -/
def strContainsSub (hay needle : String) : Bool :=
  hay.data.tails.any (fun t => needle.data.isPrefixOf t)

/-- Embedding vectors (`List[float]`) with floats modelled as rationals. -/
abbrev Emb := List ℚ

/-- A retrieved source as formatted by `VectorStore.search_similar`:
a dict with `content`, `metadata` and `similarity`.  The `metadata`
sub-dict is carried opaquely (it is not consulted by any operation
modelled here). -/
structure SourceDoc where
  content : String
  metadata : List (String × String)
  similarity : ℚ
  deriving Repr, DecidableEq

/-- Token usage dict of a completion (`prompt_tokens`, `completion_tokens`,
`total_tokens`). -/
structure Usage where
  prompt_tokens : Nat
  completion_tokens : Nat
  total_tokens : Nat
  deriving Repr, DecidableEq

/-- The `citations` sub-dict of an evaluation metrics record. -/
structure Citations where
  count : Nat
  present : Bool
  deriving Repr, DecidableEq

/-- Evaluation metrics dict built by `ResponseEvaluation.evaluate_response`
(evaluation.py lines 43-58).  `query_id` and `timestamp` are produced from
the wall clock in the source and are taken as parameters here. -/
structure EvalMetrics where
  query_id : String
  timestamp : String
  latency_ms : ℚ
  token_usage : Usage
  response_length : Nat
  source_count : Nat
  citations : Citations
  source_relevance_mean : ℚ
  confidence_score : ℚ
  deriving Repr, DecidableEq

/-- The f-string `f"[{i+1}]"` used for citation detection, at 1-based
index `i`. -/
def citationTag (i : Nat) : String := "[" ++ toString i ++ "]"

/-- `ResponseEvaluation.evaluate_response` (evaluation.py lines 33-66).
`s.get("similarity", 0)` is modelled by the (always present) `similarity`
field of `SourceDoc`.  Python's `if sources else 0` guard on the two mean
computations is the `isEmpty` test. -/
def evaluateResponse (queryId timestamp : String) (response : String)
    (sources : List SourceDoc) (executionTime : ℚ) (tokenUsage : Usage) :
    EvalMetrics :=
  { query_id := queryId
    timestamp := timestamp
    latency_ms := executionTime * 1000
    token_usage := tokenUsage
    response_length := response.length
    source_count := sources.length
    citations :=
      { count := (List.range sources.length).countP
          (fun i => strContainsSub response (citationTag (i + 1)))
        present := (List.range sources.length).any
          (fun i => strContainsSub response (citationTag (i + 1))) }
    source_relevance_mean :=
      if sources.isEmpty then 0
      else (sources.map (fun s => s.similarity)).sum / (sources.length : ℚ)
    confidence_score :=
      if sources.isEmpty then 0
      else (sources.map (fun s => s.similarity)).sum / (sources.length : ℚ) }

/-- Result of `AzureClient.generate_completion`: a dict with `text` and
`usage`. -/
structure Completion where
  text : String
  usage : Usage
  deriving Repr, DecidableEq

/-- The dict returned by `RAGSystem.process_query` on success
(rag.py lines 164-171). -/
structure QueryResult where
  query_id : String
  response : String
  sources : List SourceDoc
  evaluation : EvalMetrics
  usage : Usage
  confidence : ℚ
  deriving Repr, DecidableEq

/-- `sum(doc["similarity"] for doc in docs) / len(docs)`
(rag.py lines 97 and 162). -/
def meanSimilarity (docs : List SourceDoc) : ℚ :=
  (docs.map (fun s => s.similarity)).sum / (docs.length : ℚ)

/-- `RAGSystem.process_query` (rag.py lines 118-175), as a function of the
retrieval outcome `docs` (what `search_similar` returned) and of the
completion the provider would produce.  The second component records
whether `generate_completion` was invoked.  The empty-retrieval branch
raises `Exception("No relevant information found")` before any completion
call (rag.py lines 141-142). -/
def processQuery (queryId timestamp : String) (docs : List SourceDoc)
    (completion : Completion) (executionTime : ℚ) :
    Except String QueryResult × Bool :=
  if docs.isEmpty then
    (Except.error "No relevant information found", false)
  else
    let evaluation := evaluateResponse queryId timestamp completion.text
      docs executionTime completion.usage
    (Except.ok
      { query_id := queryId
        response := completion.text
        sources := docs
        evaluation := evaluation
        usage := completion.usage
        confidence := meanSimilarity docs }, true)

end FinancialRag

namespace FinancialRag

/-- C1. The confidence score returned by `process_query` and the
`confidence_score` of the evaluation record both equal the arithmetic mean
of the retrieved sources' similarity scores; with an empty retrieval the
query raises instead of calling the completion provider, and the
evaluator's confidence formula yields 0 on an empty source list. -/
theorem confidence_score_is_mean (qid ts : String) (docs : List SourceDoc)
    (c : Completion) (t : ℚ) :
    ((processQuery qid ts docs c t).1.map (fun r => r.confidence) =
      if docs.isEmpty then Except.error "No relevant information found"
      else Except.ok (meanSimilarity docs))
    ∧ ((processQuery qid ts docs c t).1.map
          (fun r => r.evaluation.confidence_score) =
        if docs.isEmpty then Except.error "No relevant information found"
        else Except.ok (meanSimilarity docs))
    ∧ (processQuery qid ts docs c t).2 = !docs.isEmpty
    ∧ (evaluateResponse qid ts c.text [] t c.usage).confidence_score = 0 := by
  by_cases h : docs.isEmpty <;>
    simp [processQuery, evaluateResponse, meanSimilarity, Except.map, h]

/-- A Boolean `any` over a list equals the decision of its count being
positive. -/
theorem any_eq_decide_countP_pos {α : Type} (p : α → Bool) (l : List α) :
    l.any p = decide (0 < l.countP p) := by
  induction l with
  | nil => rfl
  | cons a l ih =>
    by_cases hp : p a <;> simp [List.countP_cons, hp, ih]

/-- C2. Citation coverage of `evaluate_response`: `citations.count` is the
number of 1-based source indices `i` whose literal tag `[i]` occurs in the
response text, `citations.present` is equivalent to that count being
positive, and on the concrete instance of a response citing `[1]` and
`[3]` but not `[2]` against three sources the count is 2 and presence is
true. -/
theorem citation_coverage_eval (qid ts resp : String)
    (sources : List SourceDoc) (t : ℚ) (u : Usage) :
    ((evaluateResponse qid ts resp sources t u).citations.count =
      ((List.range sources.length).filter
        (fun i => strContainsSub resp (citationTag (i + 1)))).length)
    ∧ ((evaluateResponse qid ts resp sources t u).citations.present =
        decide (0 < (evaluateResponse qid ts resp sources t u).citations.count))
    ∧ ((evaluateResponse "q" "ts" "See [1] and also [3]."
          [⟨"a", [], 1⟩, ⟨"b", [], 1⟩, ⟨"c", [], 1⟩] 0 ⟨0, 0, 0⟩).citations.count
          = 2)
    ∧ ((evaluateResponse "q" "ts" "See [1] and also [3]."
          [⟨"a", [], 1⟩, ⟨"b", [], 1⟩, ⟨"c", [], 1⟩] 0 ⟨0, 0, 0⟩).citations.present
          = true) := by
  refine ⟨?_, ?_, ?_, ?_⟩
  · simp [evaluateResponse, List.countP_eq_length_filter]
  · simp [evaluateResponse, any_eq_decide_countP_pos]
  · decide
  · decide

/-- The cache-lookup test of `_generate_batch_embeddings`
(embeddings.py lines 86-92): `_get_cached_embedding` yields an optional
stored vector, and Python's `if cached_embedding:` truthiness also treats
an empty list as a miss. -/
def cacheHit (cache : String → Option Emb) (t : String) : Option Emb :=
  match cache t with
  | some e => if e.isEmpty then none else some e
  | none => none

/-- First pass of `_generate_batch_embeddings` (embeddings.py lines
80-94): walking the texts with their indices, collect the cached vectors
(`results`), the uncached `(index, text)` pairs (`batch`), and the hit
indices (`cached_indices`), each in input order. -/
def cachePass (cache : String → Option Emb) :
    Nat → List String → List Emb × List (Nat × String) × List Nat
  | _, [] => ([], [], [])
  | i, t :: ts =>
    let rest := cachePass cache (i + 1) ts
    match cacheHit cache t with
    | some e => (e :: rest.1, rest.2.1, i :: rest.2.2)
    | none => (rest.1, (i, t) :: rest.2.1, rest.2.2)

/-- The batched provider loop of `_generate_batch_embeddings`
(embeddings.py lines 96-117): the pending `(index, text)` pairs are taken
in groups of `batch_size = 5`, each group's texts are embedded by the
provider (concurrently via `asyncio.gather`, which returns results in task
order), and the groups are concatenated in order into `all_embeddings`. -/
def processBatches (provider : String → Emb) (batch : List (Nat × String)) :
    List Emb :=
  if batch.isEmpty then []
  else
    (batch.take 5).map (fun p => provider p.2) ++
      processBatches provider (batch.drop 5)
termination_by batch.length
decreasing_by
  simp only [List.length_drop]
  exact Nat.sub_lt (List.length_pos.mpr (by simpa using ‹¬batch.isEmpty = true›))
    (by decide)

/-- The recombination loop of `_generate_batch_embeddings`
(embeddings.py lines 119-128): for each input position `i`, take the next
cached vector when `i ∈ cached_indices` (advancing `embedding_idx`),
otherwise `all_embeddings.pop(0)`; `none` models the `IndexError` raised
when either queue is exhausted. -/
def combineGo (cachedIdxs : List Nat) :
    Nat → Nat → List Emb → List Emb → Option (List Emb)
  | _, 0, _, _ => some []
  | i, n + 1, results, allEmb =>
    if cachedIdxs.contains i then
      match results with
      | [] => none
      | r :: rs => (combineGo cachedIdxs (i + 1) n rs allEmb).map
          (fun l => r :: l)
    else
      match allEmb with
      | [] => none
      | e :: es => (combineGo cachedIdxs (i + 1) n results es).map
          (fun l => e :: l)

/-- `EmbeddingsService._generate_batch_embeddings` (embeddings.py lines
74-130), as a function of the cache contents and of the provider
(`azure_client.generate_embedding`).  With `use_cache=False` the batch is
`list(enumerate(texts))` (line 94). -/
def generateBatchEmbeddings (cache : String → Option Emb)
    (provider : String → Emb) (useCache : Bool) (texts : List String) :
    Option (List Emb) :=
  let pass := if useCache then cachePass cache 0 texts else ([], texts.enum, [])
  let allEmb := processBatches provider pass.2.1
  combineGo pass.2.2 0 texts.length pass.1 allEmb

/-- Batching the pending pairs into groups of five and concatenating the
per-group provider results equals embedding the pending texts one by one
in order. -/
theorem processBatches_eq_map (provider : String → Emb)
    (batch : List (Nat × String)) :
    processBatches provider batch = batch.map (fun p => provider p.2) := by
  have H : ∀ (n : Nat) (b : List (Nat × String)), b.length ≤ n →
      processBatches provider b = b.map (fun p => provider p.2) := by
    intro n
    induction n with
    | zero =>
      intro b hb
      have hb0 : b = [] := List.eq_nil_of_length_eq_zero (Nat.le_zero.mp hb)
      subst hb0
      rw [processBatches]
      rfl
    | succ n ih =>
      intro b hb
      rw [processBatches]
      by_cases h : b.isEmpty
      · rw [if_pos h]
        rw [List.isEmpty_iff] at h
        simp [h]
      · rw [if_neg h]
        rw [List.isEmpty_iff] at h
        have hlen : (b.drop 5).length ≤ n := by
          have h1 : 1 ≤ b.length := List.length_pos.mpr h
          simp only [List.length_drop]
          omega
        rw [ih (b.drop 5) hlen, ← List.map_append, List.take_append_drop]
  exact H batch.length batch le_rfl

/-- Unfolding `combineGo` at a cached position with a cached vector
available. -/
theorem combineGo_succ_hit (c : List Nat) (i n : Nat) (r : Emb)
    (rs allEmb : List Emb) (h : c.contains i = true) :
    combineGo c i (n + 1) (r :: rs) allEmb =
      (combineGo c (i + 1) n rs allEmb).map (fun l => r :: l) := by
  simp only [combineGo, h]
  rfl

/-- Unfolding `combineGo` at a cached position with the cached queue
exhausted (the modelled `IndexError`). -/
theorem combineGo_succ_hit_nil (c : List Nat) (i n : Nat)
    (allEmb : List Emb) (h : c.contains i = true) :
    combineGo c i (n + 1) [] allEmb = none := by
  simp only [combineGo, h]
  rfl

/-- Unfolding `combineGo` at an uncached position with a provider result
available. -/
theorem combineGo_succ_miss (c : List Nat) (i n : Nat)
    (results : List Emb) (e : Emb) (es : List Emb)
    (h : c.contains i = false) :
    combineGo c i (n + 1) results (e :: es) =
      (combineGo c (i + 1) n results es).map (fun l => e :: l) := by
  simp only [combineGo, h]
  rfl

/-- Unfolding `combineGo` at an uncached position with the provider queue
exhausted (the modelled `IndexError` of `pop(0)`). -/
theorem combineGo_succ_miss_nil (c : List Nat) (i n : Nat)
    (results : List Emb) (h : c.contains i = false) :
    combineGo c i (n + 1) results [] = none := by
  simp only [combineGo, h]
  rfl

/-- `combineGo` only consults membership of the positions it traverses. -/
theorem combineGo_congr (c c' : List Nat) :
    ∀ (n i : Nat) (results allEmb : List Emb),
    (∀ j, i ≤ j → j < i + n → c.contains j = c'.contains j) →
    combineGo c i n results allEmb = combineGo c' i n results allEmb := by
  intro n
  induction n with
  | zero => intro i results allEmb _; rfl
  | succ n ih =>
    intro i results allEmb h
    have hi : c.contains i = c'.contains i := h i le_rfl (by omega)
    have hrec : ∀ rs ae, combineGo c (i + 1) n rs ae = combineGo c' (i + 1) n rs ae :=
      fun rs ae => ih (i + 1) rs ae (fun j h1 h2 => h j (by omega) (by omega))
    by_cases hc : c.contains i = true
    · have hc' : c'.contains i = true := by rw [← hi]; exact hc
      cases results with
      | nil => rw [combineGo_succ_hit_nil c _ _ _ hc,
          combineGo_succ_hit_nil c' _ _ _ hc']
      | cons r rs => rw [combineGo_succ_hit c _ _ _ _ _ hc,
          combineGo_succ_hit c' _ _ _ _ _ hc', hrec]
    · have hcf : c.contains i = false := Bool.eq_false_iff.mpr hc
      have hc' : c'.contains i = false := by rw [← hi]; exact hcf
      cases allEmb with
      | nil => rw [combineGo_succ_miss_nil c _ _ _ hcf,
          combineGo_succ_miss_nil c' _ _ _ hc']
      | cons e es => rw [combineGo_succ_miss c _ _ _ _ _ hcf,
          combineGo_succ_miss c' _ _ _ _ _ hc', hrec]

/-- Every index recorded as cached by `cachePass` starting at `i` is at
least `i`. -/
theorem cachePass_idx_ge (cache : String → Option Emb) :
    ∀ (ts : List String) (i j : Nat),
    j ∈ (cachePass cache i ts).2.2 → i ≤ j := by
  intro ts
  induction ts with
  | nil => intro i j h; simp [cachePass] at h
  | cons t ts ih =>
    intro i j h
    simp only [cachePass] at h
    cases hc : cacheHit cache t with
    | some e =>
      rw [hc] at h
      simp only [List.mem_cons] at h
      rcases h with h | h
      · omega
      · exact le_trans (by omega) (ih (i + 1) j h)
    | none =>
      rw [hc] at h
      exact le_trans (by omega) (ih (i + 1) j h)

/-- Core invariant for C3: recombining the cached vectors with the
provider results of the pending pairs reproduces, at every input
position, the embedding of that position's text. -/
theorem combine_preserves_order (cache : String → Option Emb)
    (provider : String → Emb) :
    ∀ (ts : List String) (i : Nat),
    combineGo (cachePass cache i ts).2.2 i ts.length (cachePass cache i ts).1
        ((cachePass cache i ts).2.1.map (fun p => provider p.2))
      = some (ts.map (fun t => (cacheHit cache t).getD (provider t))) := by
  intro ts
  induction ts with
  | nil => intro i; rfl
  | cons t ts ih =>
    intro i
    cases hc : cacheHit cache t with
    | some e =>
      simp only [cachePass, hc, List.length_cons, List.map_cons]
      have hcont : ((i :: (cachePass cache (i + 1) ts).2.2).contains i) = true := by
        simp
      rw [combineGo_succ_hit _ _ _ _ _ _ hcont]
      rw [combineGo_congr (i :: (cachePass cache (i + 1) ts).2.2)
        ((cachePass cache (i + 1) ts).2.2) ts.length (i + 1) _ _ ?_]
      · rw [ih (i + 1)]
        simp [hc]
      · intro j h1 _
        have hij : (j == i) = false := beq_eq_false_iff_ne.mpr (by omega)
        simp only [List.contains_cons, hij, Bool.false_or]
    | none =>
      simp only [cachePass, hc, List.length_cons, List.map_cons]
      have hcont : ((cachePass cache (i + 1) ts).2.2.contains i) = false := by
        by_contra hmem
        rw [Bool.not_eq_false, List.contains_iff_exists_mem_beq] at hmem
        obtain ⟨j, hj, hbeq⟩ := hmem
        have := cachePass_idx_ge cache ts (i + 1) j hj
        rw [beq_iff_eq] at hbeq
        omega
      rw [combineGo_succ_miss _ _ _ _ _ _ hcont]
      rw [ih (i + 1)]
      simp [hc]

/-- With the cache disabled, `combineGo` over an empty hit set drains the
provider results in order. -/
theorem combineGo_no_cache (es : List Emb) :
    ∀ (i : Nat), combineGo [] i es.length [] es = some es := by
  induction es with
  | nil => intro i; rfl
  | cons e es ih =>
    intro i
    rw [List.length_cons, combineGo_succ_miss _ _ _ _ _ _ (by simp)]
    rw [ih (i + 1)]
    rfl

/-- C3. Batch embedding returns the embeddings in input order for every
cache hit/miss pattern: with caching on, output position `i` is the cached
vector of input `i` when the cache holds one (Python-truthily non-empty)
and the provider's embedding of input `i` otherwise; with caching off it
is the provider's embedding of input `i`. -/
theorem batch_embeddings_keep_input_order (cache : String → Option Emb)
    (provider : String → Emb) (texts : List String) :
    generateBatchEmbeddings cache provider true texts
      = some (texts.map (fun t => (cacheHit cache t).getD (provider t)))
    ∧ generateBatchEmbeddings cache provider false texts
      = some (texts.map provider) := by
  constructor
  · show combineGo (cachePass cache 0 texts).2.2 0 texts.length
        (cachePass cache 0 texts).1
        (processBatches provider (cachePass cache 0 texts).2.1) = _
    rw [processBatches_eq_map]
    exact combine_preserves_order cache provider texts 0
  · show combineGo [] 0 texts.length [] (processBatches provider texts.enum) = _
    rw [processBatches_eq_map]
    have henum : texts.enum.map (fun p => provider p.2) = texts.map provider := by
      rw [show (fun p : Nat × String => provider p.2) = provider ∘ Prod.snd from rfl,
        ← List.map_map, List.enum_map_snd]
    rw [henum]
    have := combineGo_no_cache (texts.map provider) 0
    rw [List.length_map] at this
    exact this

/-- Python's `s.strip()`: remove leading and trailing whitespace.
Implemented by structural recursion over the character list so that it
evaluates on concrete inputs. -/
def pyStrip (s : String) : String :=
  String.mk
    (((s.data.dropWhile Char.isWhitespace).reverse.dropWhile
        Char.isWhitespace).reverse)

/-- Python slice index clamping: a negative index counts from the end,
and indices are clamped into `[0, n]`. -/
def pyIndex (n : Nat) (i : Int) : Nat :=
  (if i < 0 then (n : Int) + i else i).toNat.min n

/-- Python's `l[a:b]` list slice. -/
def pySlice {τ : Type} (l : List τ) (a b : Int) : List τ :=
  (l.take (pyIndex l.length b)).drop (pyIndex l.length a)

/-- Python's `s.rfind(c)`: the highest character index of `c` in `s`, or
`-1` when absent. -/
def pyRfind (s : String) (c : Char) : Int :=
  match s.data.reverse.findIdx? (fun x => x == c) with
  | some j => (s.data.length : Int) - 1 - j
  | none => -1

/-- A tokenizer as used by `chunk_text`
(`tiktoken.encoding_for_model(...)`): an encode/decode pair over an
abstract token type. -/
structure Encoding (τ : Type) where
  encode : String → List τ
  decode : List τ → String

/-- A character-level tokenizer: each character is one token.  Used to
instantiate the token-based chunker on concrete inputs. -/
def charEncoding : Encoding Char :=
  { encode := fun s => s.data, decode := fun l => String.mk l }

/-- The natural break characters of `chunk_text` (text_processing.py
lines 38-44), in the priority order of the `break_points` list. -/
def breakChars : List Char := ['.', '!', '?', '\n', ' ']

/-- A chunk dict produced by `chunk_text` (text_processing.py lines
55-60). -/
structure TokChunk where
  text : String
  token_count : Nat
  start_char : Nat
  end_char : Nat
  deriving Repr, DecidableEq

/-- The break-point adjustment of `chunk_text` (text_processing.py lines
36-50): compute `rfind` for each break character over the decoded window
and, for the first one present, move `end` to `end - (20 - point)`. -/
def adjustEnd (decoded : String) (endPos : Int) : Int :=
  match (breakChars.map (pyRfind decoded)).find? (fun p => p != -1) with
  | some p => endPos - (20 - p)
  | none => endPos

/-- The `while start < len(tokens)` loop of `chunk_text`
(text_processing.py lines 31-63), run with explicit fuel: `none` means the
fuel ran out with the loop guard still true.  `start` is an integer since
`end - overlap_tokens` can go negative in Python. -/
def chunkLoop {τ : Type} (enc : Encoding τ) (maxTokens overlapTokens : Nat)
    (tokens : List τ) : Nat → Int → List TokChunk → Option (List TokChunk)
  | fuel, start, acc =>
    if start < (tokens.length : Int) then
      match fuel with
      | 0 => none
      | fuel' + 1 =>
        let end0 : Int := start + maxTokens
        let endPos : Int :=
          if end0 < (tokens.length : Int) then
            adjustEnd (enc.decode (pySlice tokens (end0 - 20) (end0 + 20))) end0
          else end0
        let chunkTokens := pySlice tokens start endPos
        let chunk : TokChunk :=
          { text := pyStrip (enc.decode chunkTokens)
            token_count := chunkTokens.length
            start_char := (enc.decode (pySlice tokens 0 start)).length
            end_char := (enc.decode (pySlice tokens 0 endPos)).length }
        chunkLoop enc maxTokens overlapTokens tokens fuel'
          (endPos - overlapTokens) (acc ++ [chunk])
    else some acc

/-- `chunk_text` of `src/api/src/utils/text_processing.py` (lines 16-65),
the token-based chunker, parameterized by the tokenizer and run with
fuel. -/
def chunkTextTok {τ : Type} (enc : Encoding τ) (maxTokens overlapTokens : Nat)
    (fuel : Nat) (text : String) : Option (List TokChunk) :=
  chunkLoop enc maxTokens overlapTokens (enc.encode text) fuel 0 []

/-- `RAGSystem._chunk_text` (rag.py lines 395-433), the character-based
chunker used by `ingest_document`: texts under 1000 characters become a
single trimmed chunk; longer texts are regrouped by paragraphs.  Python
string truthiness (`if p.strip()`, `if current_chunk`) is the
emptiness test. -/
def chunkTextRag (text : String) : List String :=
  if text.length < 1000 then [pyStrip text]
  else
    let paragraphs :=
      ((text.splitOn "\n\n").map pyStrip).filter (fun p => p ≠ "")
    let final := paragraphs.foldl
      (fun (acc : List String × String) para =>
        if acc.2.length + para.length < 1000 then
          (acc.1, acc.2 ++ para ++ "\n\n")
        else
          (if acc.2 = "" then acc.1 else acc.1 ++ [pyStrip acc.2],
            para ++ "\n\n"))
      ([], "")
    if final.2 = "" then final.1 else final.1 ++ [pyStrip final.2]

/-- C4 (counterexample).  The token-based `chunk_text` cited by the claim
returns zero chunks on the empty text (its `while` guard fails
immediately on an empty token list), not the single chunk the claim
demands. -/
theorem tok_chunker_empty_input_cex :
    chunkTextTok charEncoding 100 20 1 "" = some [] ∧
    ¬∃ c : TokChunk, chunkTextTok charEncoding 100 20 1 "" = some [c] := by
  refine ⟨rfl, ?_⟩
  rintro ⟨c, hc⟩
  rw [show chunkTextTok charEncoding 100 20 1 "" = some [] from rfl] at hc
  simp at hc

/-- C4 (amended).  The character-based chunker used by document ingestion
(`RAGSystem._chunk_text`) returns exactly one chunk, the trimmed input,
for every text shorter than its 1000-character chunk size — including the
empty text. -/
theorem rag_chunker_small_single (text : String) (h : text.length < 1000) :
    chunkTextRag text = [pyStrip text] := by
  simp only [chunkTextRag]
  rw [if_pos h]

/-- Witness for the amended C4 at a concrete short input. -/
theorem rag_chunker_small_single_witness :
    chunkTextRag " hello world " = [pyStrip " hello world "] :=
  rag_chunker_small_single " hello world " (by decide)

/-- The loop of `chunk_text` never advances on the input `"aaaa"` with
`max_tokens = 2` and `overlap_tokens = 2` (character-level tokens, no
break characters present): each iteration re-derives `start = 0`. -/
theorem aaaa_loop_stuck :
    ∀ (fuel : Nat) (acc : List TokChunk),
    chunkLoop charEncoding 2 2 (charEncoding.encode "aaaa") fuel 0 acc = none := by
  intro fuel
  induction fuel with
  | zero => intro acc; rfl
  | succ n ih =>
    intro acc
    have h : chunkLoop charEncoding 2 2 (charEncoding.encode "aaaa") (n + 1) 0 acc
        = chunkLoop charEncoding 2 2 (charEncoding.encode "aaaa") n 0
          (acc ++ [⟨"aa", 2, 0, 2⟩]) := by
      rw [chunkLoop,
        if_pos (by decide : (0 : Int) < ((charEncoding.encode "aaaa").length : Int))]
      rfl
    rw [h]
    exact ih (acc ++ [⟨"aa", 2, 0, 2⟩])

/-- C5.  With `overlap_tokens >= max_tokens` the `chunk_text` loop of
text_processing.py does not terminate: on the concrete input `"aaaa"`
with `max_tokens = 2`, `overlap_tokens = 2`, no amount of fuel completes
the loop — the source has no configuration-error guard against a
non-positive advance step. -/
theorem tok_chunker_nonadvancing_loop :
    ∀ fuel : Nat, chunkTextTok charEncoding 2 2 fuel "aaaa" = none :=
  fun fuel => aaaa_loop_stuck fuel []

/-- The chunk list prepared in step 2 of `RAGSystem.ingest_document`
(rag.py lines 194-205): `_chunk_text` with the `except`/empty fallback to
a single stripped chunk. -/
def chunksOf (content : String) : List String :=
  let c0 := chunkTextRag content
  if c0.isEmpty then [pyStrip content] else c0

/-- A chunk together with its embedding and chunk-specific metadata, as
assembled in step 3 of `ingest_document` (rag.py lines 208-225). -/
structure ChunkEmbedding where
  content : String
  embedding : Emb
  chunk_index : Nat
  chunk_total : Nat
  deriving Repr, DecidableEq

/-- Step 3 of `ingest_document` (rag.py lines 208-225): each chunk is
embedded individually; a chunk whose embedding call raises is logged and
skipped (`continue`), all other chunks are kept in order.  The
collaborator outcome `embedChunk` gives the embedding or `none` for a
raised provider error. -/
def chunkEmbeddingsOf (embedChunk : String → Option Emb)
    (chunks : List String) : List ChunkEmbedding :=
  chunks.enum.filterMap (fun p =>
    (embedChunk p.2).map (fun e =>
      { content := p.2
        embedding := e
        chunk_index := p.1
        chunk_total := chunks.length }))

/-- The dict returned by `ingest_document` on success (rag.py lines
238-244). -/
structure IngestResult where
  document_id : String
  url : String
  chunk_count : Nat
  embedding_count : Nat
  status : String
  deriving Repr, DecidableEq

/-- `RAGSystem.ingest_document` (rag.py lines 177-249) with the document
store and the vector store succeeding (their outcomes are not at issue in
the embedding-failure claim): chunks are embedded individually, and the
whole ingestion raises `ValueError("No embeddings were successfully
generated")` only when no chunk survived (rag.py lines 227-228). -/
def ingestDocument (embedChunk : String → Option Emb)
    (documentId docUrl content : String) : Except String IngestResult :=
  let chunks := chunksOf content
  let ces := chunkEmbeddingsOf embedChunk chunks
  if ces.isEmpty then
    Except.error "No embeddings were successfully generated"
  else
    Except.ok
      { document_id := documentId
        url := docUrl
        chunk_count := chunks.length
        embedding_count := ces.length
        status := "success" }

/-- The contents kept by step 3 are exactly the chunks whose embedding
succeeded, in their original order. -/
theorem chunkEmbeddings_contents (embedChunk : String → Option Emb)
    (chunks : List String) :
    (chunkEmbeddingsOf embedChunk chunks).map (fun ce => ce.content)
      = chunks.filter (fun ch => (embedChunk ch).isSome) := by
  have H : ∀ (total : Nat) (i : Nat) (l : List String),
      ((l.enumFrom i).filterMap (fun p =>
        (embedChunk p.2).map (fun e =>
          ({ content := p.2, embedding := e, chunk_index := p.1,
             chunk_total := total } : ChunkEmbedding)))).map
        (fun ce => ce.content)
      = l.filter (fun ch => (embedChunk ch).isSome) := by
    intro total
    intro i l
    induction l generalizing i with
    | nil => rfl
    | cons t ts ih =>
      simp only [List.enumFrom, List.filterMap_cons]
      cases he : embedChunk t with
      | some e => simp [List.filter_cons, he, ih]
      | none => simp [List.filter_cons, he, ih]
  exact H chunks.length 0 chunks

/-- C6.  Ingestion tolerates individual chunk-embedding failures: the
result is a success record whenever at least one chunk embedded, counting
exactly the successful chunks; it is the `ValueError` only when every
chunk failed.  The kept chunk contents are the successful ones in input
order, independent of failures around them. -/
theorem ingest_tolerates_partial_embedding_failure
    (embedChunk : String → Option Emb) (documentId docUrl content : String) :
    ((ingestDocument embedChunk documentId docUrl content).map
        (fun r => (r.embedding_count, r.status))
      = (if (chunksOf content).any (fun ch => (embedChunk ch).isSome) then
          Except.ok
            ((chunksOf content).countP (fun ch => (embedChunk ch).isSome),
              "success")
         else Except.error "No embeddings were successfully generated"))
    ∧ ((chunkEmbeddingsOf embedChunk (chunksOf content)).map
          (fun ce => ce.content)
        = (chunksOf content).filter (fun ch => (embedChunk ch).isSome)) := by
  refine ⟨?_, chunkEmbeddings_contents embedChunk (chunksOf content)⟩
  have hlen : (chunkEmbeddingsOf embedChunk (chunksOf content)).length
      = (chunksOf content).countP (fun ch => (embedChunk ch).isSome) := by
    have := congrArg List.length
      (chunkEmbeddings_contents embedChunk (chunksOf content))
    rw [List.length_map] at this
    rw [this, List.countP_eq_length_filter]
  by_cases h : (chunksOf content).any (fun ch => (embedChunk ch).isSome)
  · have hpos : 0 < (chunksOf content).countP (fun ch => (embedChunk ch).isSome) := by
      have h2 := any_eq_decide_countP_pos
        (fun ch => (embedChunk ch).isSome) (chunksOf content)
      rw [h] at h2
      exact of_decide_eq_true h2.symm
    have hne : (chunkEmbeddingsOf embedChunk (chunksOf content)) ≠ [] := by
      intro hnil
      rw [hnil] at hlen
      simp only [List.length_nil] at hlen
      omega
    have hemp : (chunkEmbeddingsOf embedChunk (chunksOf content)).isEmpty = false := by
      rw [List.isEmpty_eq_false]
      exact hne
    simp only [ingestDocument, hemp, Bool.false_eq_true, if_false, if_pos h,
      Except.map, hlen]
  · have hz : (chunksOf content).countP (fun ch => (embedChunk ch).isSome) = 0 := by
      have h2 := any_eq_decide_countP_pos
        (fun ch => (embedChunk ch).isSome) (chunksOf content)
      rw [Bool.eq_false_iff.mpr h] at h2
      have := of_decide_eq_false h2.symm
      omega
    have hnil : chunkEmbeddingsOf embedChunk (chunksOf content) = [] := by
      apply List.eq_nil_of_length_eq_zero
      rw [hlen, hz]
    simp only [ingestDocument, hnil, List.isEmpty_nil, if_true, Except.map,
      if_neg h]

/-- An event dict yielded by `RAGSystem.process_query_stream` (rag.py
lines 29-116): a `type` tag with its `data`. -/
inductive StreamEvent where
  | sources (docs : List SourceDoc)
  | token (fragment : String)
  | metadata (queryId : String) (confidence : ℚ) (responseTimeMs : ℚ)
      (sourcesCount : Nat) (tokenCount : Nat)
  | error (message : String)
  deriving Repr, DecidableEq

/-- `RAGSystem.process_query_stream` (rag.py lines 29-116) as the list of
events it yields, given the retrieval outcome and the token fragments the
completion provider would stream.  The second component records whether
`generate_completion_stream` was invoked.  An empty retrieval yields the
single error event and returns (rag.py lines 52-57). -/
def processQueryStream (queryId : String) (docs : List SourceDoc)
    (tokens : List String) (executionTime : ℚ) :
    List StreamEvent × Bool :=
  if docs.isEmpty then
    ([StreamEvent.error "No relevant information found."], false)
  else
    (StreamEvent.sources docs ::
      tokens.map StreamEvent.token ++
      [StreamEvent.metadata queryId (meanSimilarity docs)
        (executionTime * 1000) docs.length tokens.length], true)

/-- An SSE frame written by the `/query/stream` route: either a
`data: <event JSON>` frame or the literal `data: [DONE]` sentinel. -/
inductive SSEFrame where
  | data (e : StreamEvent)
  | done
  deriving Repr, DecidableEq

/-- `stream_query.event_generator` (query.py lines 98-115): each event is
framed; an `error` event is framed and then the loop `break`s; after the
loop the `[DONE]` sentinel is emitted. -/
def eventGenerator : List StreamEvent → List SSEFrame
  | [] => [SSEFrame.done]
  | e :: es =>
    match e with
    | StreamEvent.error m => [SSEFrame.data (StreamEvent.error m), SSEFrame.done]
    | _ => SSEFrame.data e :: eventGenerator es

/-- C7.  A streaming query whose retrieval returns no sources emits
exactly one `error` event followed by the `[DONE]` sentinel — zero
`token` events, zero `sources` events — and the completion provider is
never invoked. -/
theorem stream_no_sources_single_error (queryId : String)
    (tokens : List String) (executionTime : ℚ) :
    (processQueryStream queryId [] tokens executionTime).1
      = [StreamEvent.error "No relevant information found."]
    ∧ eventGenerator (processQueryStream queryId [] tokens executionTime).1
      = [SSEFrame.data (StreamEvent.error "No relevant information found."),
          SSEFrame.done]
    ∧ ((processQueryStream queryId [] tokens executionTime).1.countP
        (fun e => match e with | StreamEvent.token _ => true | _ => false) = 0)
    ∧ ((processQueryStream queryId [] tokens executionTime).1.countP
        (fun e => match e with | StreamEvent.sources _ => true | _ => false) = 0)
    ∧ (processQueryStream queryId [] tokens executionTime).2 = false := by
  refine ⟨rfl, rfl, ?_, ?_, rfl⟩ <;> rfl

/-- The per-backend `status` dict of `RAGSystem.delete_document` (rag.py
lines 333-336). -/
structure DeleteStatus where
  blob_storage : Bool
  vector_store : Bool
  deriving Repr, DecidableEq

/-- The dict returned by `delete_document` on success (rag.py lines
370-374). -/
structure DeleteResult where
  status : String
  document_id : String
  details : DeleteStatus
  deriving Repr, DecidableEq

/-- `RAGSystem.delete_document` (rag.py lines 324-376), as a function of
the collaborator outcomes: blob deletion, vector-store deletion and the
embeddings-cache purge (each `Except.error` models a raised exception with
its message).  A cache-purge failure is caught and only logged (rag.py
lines 360-366): it is not appended to `errors` and does not affect the
result.  When either backend deletion failed the method raises the generic
`Exception("Deletion partially failed: ...")` (rag.py line 376). -/
def deleteDocument (blobDelete : Except String Unit)
    (vectorDelete : Except String Bool) (cacheClear : Except String Unit)
    (documentId : String) : Except String DeleteResult :=
  let blob := match blobDelete with
    | Except.ok _ => (true, ([] : List String))
    | Except.error e => (false, ["Blob storage deletion failed: " ++ e])
  let vec := match vectorDelete with
    | Except.ok _ => (true, ([] : List String))
    | Except.error e => (false, ["Vector store deletion failed: " ++ e])
  if blob.1 && vec.1 then
    Except.ok
      { status := "success"
        document_id := documentId
        details := { blob_storage := blob.1, vector_store := vec.1 } }
  else
    Except.error
      ("Deletion partially failed: " ++
        String.intercalate "; " (blob.2 ++ vec.2))

/-- The HTTP status chosen by the `DELETE /documents/{document_id}` route
(documents.py lines 128-140): 404 only when the raised message contains
the literal substring `Document not found`, 500 for any other raised
message. -/
def deleteRouteStatusCode (r : Except String DeleteResult) : Nat :=
  match r with
  | Except.ok _ => 200
  | Except.error msg =>
    if strContainsSub msg "Document not found" then 404 else 500

/-- C8.  Deleting an absent document is reported as a generic failure
indistinguishable from a backend outage: Azure's blob delete raises with
`The specified blob does not exist.`, the vector-store delete of zero
points succeeds, so `delete_document` raises the generic
`Deletion partially failed` exception, whose message never contains the
`Document not found` marker the route checks for — the route answers 500,
not 404 or a no-op success. -/
theorem delete_absent_document_generic_error :
    deleteDocument (Except.error "The specified blob does not exist.")
        (Except.ok true) (Except.error "attribute missing") "missing-doc"
      = Except.error
          "Deletion partially failed: Blob storage deletion failed: The specified blob does not exist."
    ∧ deleteRouteStatusCode
        (deleteDocument (Except.error "The specified blob does not exist.")
          (Except.ok true) (Except.error "attribute missing") "missing-doc")
      = 500 := by
  constructor
  · rfl
  · decide

/-- `EmbeddingsService._get_cache_key` (embeddings.py lines 156-159):
`f"emb:{sha256(text).hexdigest()}"`, taking the hex digest of the text as
an argument. -/
def cacheKeyOf (digest : String) : String := "emb:" ++ digest

/-- The fixed part of the Redis glob `f"emb:doc:{document_id}:*"` used by
`EmbeddingsService.clear_document_cache` (embeddings.py line 197). -/
def purgePatternStem (documentId : String) : String :=
  "emb:doc:" ++ documentId ++ ":"

/-- Whether a Redis key matches the purge glob: the glob ends in a single
`*`, so (for a document id without glob metacharacters) a key matches
exactly when it starts with the fixed part. -/
def purgeMatches (documentId key : String) : Bool :=
  (purgePatternStem documentId).data.isPrefixOf key.data

/-- `EmbeddingsService.clear_document_cache` (embeddings.py lines
194-204) acting on a cache modelled as an association list: it deletes
every key matching the glob and keeps the rest. -/
def clearDocumentCache (documentId : String) (cache : List (String × Emb)) :
    List (String × Emb) :=
  cache.filter (fun kv => !purgeMatches documentId kv.1)

/-- C9.  The purge glob can never name a cached embedding: embeddings are
cached under content-hash keys `emb:<sha256 hex>`, whose hex digest
contains no colon, while the purge pattern requires `doc:` after `emb:`.
Concretely, with the sha256 digest of `"hello"` cached, clearing the
cache for a document removes nothing. -/
theorem cache_purge_never_matches_content_keys :
    purgeMatches "doc-1"
        (cacheKeyOf
          "2cf24dba5fb0a30e26e83b2ac5b9e29e1b161e5c1fa7425e73043362938b9824")
      = false
    ∧ clearDocumentCache "doc-1"
        [(cacheKeyOf
            "2cf24dba5fb0a30e26e83b2ac5b9e29e1b161e5c1fa7425e73043362938b9824",
          [(1 : ℚ), 2])]
      = [(cacheKeyOf
            "2cf24dba5fb0a30e26e83b2ac5b9e29e1b161e5c1fa7425e73043362938b9824",
          [(1 : ℚ), 2])]
    ∧ (deleteDocument (Except.ok ()) (Except.ok true)
        (Except.error "cache purge failed") "doc-1")
      = Except.ok
          { status := "success", document_id := "doc-1",
            details := { blob_storage := true, vector_store := true } } := by
  refine ⟨?_, ?_, rfl⟩
  · decide
  · decide

/-- A filter value as accepted by `VectorStore.search_similar`
(vector_store.py lines 120-145): a string, a number (`int`/`float`,
converted with `str(value)` before matching), or a list (matched with
`Match(any=...)`). -/
inductive FVal where
  | str (v : String)
  | num (v : ℚ)
  | list (vs : List String)
  deriving Repr, DecidableEq

/-- The Qdrant `Match` object built for a filter value. -/
inductive QMatch where
  | value (v : String)
  | anyOf (vs : List String)
  deriving Repr, DecidableEq

/-- Python's `str()` on a number, abstracted: only injectivity-free
formatting is needed here. -/
def strOfNum (q : ℚ) : String := toString q

/-- A Qdrant `FieldCondition` with its dotted payload path. -/
structure FieldCondition where
  key : String
  condition : QMatch
  deriving Repr, DecidableEq

/-- The condition `search_similar` builds for one non-`user_id` filter
entry (vector_store.py lines 124-145). -/
def conditionOf (kv : String × FVal) : FieldCondition :=
  { key := "metadata." ++ kv.1
    condition :=
      match kv.2 with
      | FVal.list vs => QMatch.anyOf vs
      | FVal.num q => QMatch.value (strOfNum q)
      | FVal.str s => QMatch.value s }

/-- The loop over `filter_criteria.items()` (vector_store.py lines
119-145): entries keyed `user_id` are skipped with `continue`, every
other entry contributes its condition. -/
def buildConditions (criteria : List (String × FVal)) : List FieldCondition :=
  criteria.filterMap (fun kv =>
    if kv.1 = "user_id" then none else some (conditionOf kv))

/-- The `query_filter` sent to Qdrant (vector_store.py lines 116-148):
`None` when `filter_criteria` is falsy or when no condition survived,
otherwise `Filter(must=conditions)` (modelled as the condition list). -/
def buildSearchFilter (criteria : List (String × FVal)) :
    Option (List FieldCondition) :=
  if criteria.isEmpty then none
  else if (buildConditions criteria).isEmpty then none
  else some (buildConditions criteria)

/-- Whether one field condition holds of a stored point's payload,
modelled as an association list from dotted paths to stored (string)
values: Qdrant's `Match(value=...)` is equality at the path, and
`Match(any=...)` is membership. -/
def condHolds (payload : List (String × String)) (c : FieldCondition) : Bool :=
  match payload.lookup c.key with
  | some v =>
    match c.condition with
    | QMatch.value w => v == w
    | QMatch.anyOf ws => ws.contains v
  | none => false

/-- Qdrant's semantics of the built filter: `None` accepts every point,
`Filter(must=conds)` is the conjunction of the conditions. -/
def filterAccepts (filt : Option (List FieldCondition))
    (payload : List (String × String)) : Bool :=
  match filt with
  | none => true
  | some conds => conds.all (condHolds payload)

/-- `all` over a mapped list, for a map between different types. -/
theorem all_map_hetero {α β : Type} (f : α → β) (p : β → Bool) (l : List α) :
    (l.map f).all p = l.all (fun a => p (f a)) := by
  induction l with
  | nil => rfl
  | cons a l ih => simp [List.all_cons, ih]

/-- `buildConditions` is the per-entry condition of the non-`user_id`
entries, in order. -/
theorem buildConditions_eq_map_filter (criteria : List (String × FVal)) :
    buildConditions criteria
      = (criteria.filter (fun kv => !(kv.1 == "user_id"))).map conditionOf := by
  induction criteria with
  | nil => rfl
  | cons kv rest ih =>
    by_cases h : kv.1 = "user_id"
    · have step : buildConditions (kv :: rest) = buildConditions rest := by
        simp [buildConditions, List.filterMap_cons, h]
      have hb : (!(kv.1 == "user_id")) = false := by simp [h]
      rw [step, ih, List.filter_cons, hb]
      simp
    · have step : buildConditions (kv :: rest)
          = conditionOf kv :: buildConditions rest := by
        simp [buildConditions, List.filterMap_cons, h]
      have hb : (!(kv.1 == "user_id")) = true := by simp [h]
      rw [step, ih, List.filter_cons, hb]
      simp

/-- C10.  Filter entries keyed `user_id` are silently dropped: the filter
sent to the vector database is the one built from the remaining entries
(so the search behaves exactly as if the `user_id` entry were absent),
and a point passes the built filter exactly when it satisfies the
condition of every non-`user_id` entry conjunctively. -/
theorem user_id_filter_silently_excluded (criteria : List (String × FVal))
    (payload : List (String × String)) :
    buildSearchFilter criteria
      = buildSearchFilter (criteria.filter (fun kv => !(kv.1 == "user_id")))
    ∧ filterAccepts (buildSearchFilter criteria) payload
      = criteria.all (fun kv =>
          (kv.1 == "user_id") || condHolds payload (conditionOf kv)) := by
  have hfil_idem :
      (criteria.filter (fun kv => !(kv.1 == "user_id"))).filter
        (fun kv => !(kv.1 == "user_id"))
      = criteria.filter (fun kv => !(kv.1 == "user_id")) := by
    apply List.filter_eq_self.mpr
    intro a ha
    exact (List.mem_filter.mp ha).2
  constructor
  · by_cases hc : criteria.isEmpty
    · rw [List.isEmpty_iff.mp hc]
      rfl
    · have hc' : criteria.isEmpty = false := Bool.eq_false_iff.mpr hc
      simp only [buildSearchFilter, hc', Bool.false_eq_true, if_false,
        buildConditions_eq_map_filter, hfil_idem]
      by_cases hfe : (criteria.filter (fun kv => !(kv.1 == "user_id"))).isEmpty
      · rw [List.isEmpty_iff.mp hfe]
        simp
      · have hfe' : (criteria.filter
            (fun kv => !(kv.1 == "user_id"))).isEmpty = false :=
          Bool.eq_false_iff.mpr hfe
        have hm : ((criteria.filter (fun kv => !(kv.1 == "user_id"))).map
            conditionOf).isEmpty = false := by
          rw [List.isEmpty_eq_false] at hfe' ⊢
          intro hx
          exact hfe' (List.map_eq_nil_iff.mp hx)
        simp [hfe', hm]
  · by_cases hc : criteria.isEmpty
    · rw [List.isEmpty_iff.mp hc]
      rfl
    · have hc' : criteria.isEmpty = false := Bool.eq_false_iff.mpr hc
      simp only [buildSearchFilter, hc', Bool.false_eq_true, if_false,
        buildConditions_eq_map_filter]
      by_cases hfe : (criteria.filter (fun kv => !(kv.1 == "user_id"))).isEmpty
      · have hfnil : criteria.filter (fun kv => !(kv.1 == "user_id")) = [] :=
          List.isEmpty_iff.mp hfe
        rw [hfnil]
        show true = criteria.all _
        symm
        rw [List.all_eq_true]
        intro x hx
        have h2 : (x.1 == "user_id") = true := by
          cases hbe : (x.1 == "user_id") with
          | true => rfl
          | false =>
            have hmem : x ∈ criteria.filter (fun kv => !(kv.1 == "user_id")) :=
              List.mem_filter.mpr ⟨hx, by rw [hbe]; rfl⟩
            rw [hfnil] at hmem
            exact absurd hmem (List.not_mem_nil x)
        simp [h2]
      · have hfe' : (criteria.filter
            (fun kv => !(kv.1 == "user_id"))).isEmpty = false :=
          Bool.eq_false_iff.mpr hfe
        have hm : ((criteria.filter (fun kv => !(kv.1 == "user_id"))).map
            conditionOf).isEmpty = false := by
          rw [List.isEmpty_eq_false] at hfe' ⊢
          intro hx
          exact hfe' (List.map_eq_nil_iff.mp hx)
        rw [hm]
        simp only [Bool.false_eq_true, if_false]
        show ((criteria.filter (fun kv => !(kv.1 == "user_id"))).map
          conditionOf).all (condHolds payload) = _
        rw [all_map_hetero, List.all_filter]
        have hfun :
            (fun a : String × FVal =>
              decide ((!(a.1 == "user_id")) = true →
                condHolds payload (conditionOf a) = true))
            = (fun kv : String × FVal =>
                (kv.1 == "user_id") || condHolds payload (conditionOf kv)) := by
          funext a
          cases hb : (a.1 == "user_id") <;>
            cases hcd : condHolds payload (conditionOf a) <;>
            simp [hb, hcd]
        rw [hfun]

end FinancialRag
